import Mathlib

/-!
Verification of the pytables query-expression compiler
(`pandas/computation/pytables.py`): value coercion, the condition/filter
classification of comparisons, role-directed pruning, and the `Expr` driver.

The embedding is shallow: Python values that can appear in a query are the
inductive `PyVal` (strings, machine-independent integers, booleans); fallible
Python code (conversions that may raise) returns `Option`/`Except`.
IEEE-754 floats and datetime objects are outside the modelled value
universe; branches of the source that only apply to them are modelled as
conversion failure, with a comment at each site.
-/

/-- Python values that can appear as query literals in the embedding. -/
inductive PyVal where
  | str (s : String)
  | int (n : Int)
  | bool (b : Bool)
deriving DecidableEq, Repr

/-- Python str(v) / com.pprint_thing on the modelled value universe. -/
def pyStr : PyVal → String
  | .str s => s
  | .int n => toString n
  | .bool b => if b then "True" else "False"

/-- Python bool(v) (truthiness) on the modelled value universe. -/
def pyTruthy : PyVal → Bool
  | .str s => decide (s ≠ "")
  | .int n => decide (n ≠ 0)
  | .bool b => b

/-- Value of a digit string, most significant digit first. -/
def digitsVal (cs : List Char) : Nat :=
  cs.foldl (fun a c => a * 10 + (c.toNat - 48)) 0

/-- Lexicographic comparison of char lists (Python str less-than); defined
structurally so the kernel can evaluate it. -/
def charsLt : List Char → List Char → Bool
  | [], [] => false
  | [], _ :: _ => true
  | _ :: _, [] => false
  | a :: as, b :: bs =>
      if a < b then true else if b < a then false else charsLt as bs

/-- Python s.strip(): drop whitespace from both ends. -/
def trimChars (cs : List Char) : List Char :=
  ((cs.dropWhile Char.isWhitespace).reverse.dropWhile Char.isWhitespace).reverse

/-- Python s.lower() on the modelled (ASCII) alphabet. -/
def lowerChars (cs : List Char) : List Char :=
  cs.map Char.toLower

/-- Split a char list on a separator character (Python split with a
one-character separator). -/
def splitOnChar (sep : Char) : List Char → List (List Char)
  | [] => [[]]
  | c :: cs =>
      match splitOnChar sep cs with
      | [] => [[]]
      | piece :: rest =>
          if c = sep then [] :: piece :: rest else (c :: piece) :: rest

/-- Parse a char list as a decimal natural: at least one char, all digits. -/
def natOfDigits? (cs : List Char) : Option Nat :=
  if cs ≠ [] ∧ cs.all Char.isDigit then some (digitsVal cs) else none

/-- Strict comparison used by numpy searchsorted on homogeneous data.
Mixed-type comparisons are outside the model and compare false. -/
def pyLt : PyVal → PyVal → Bool
  | .str a, .str b => charsLt a.data b.data
  | .int a, .int b => decide (a < b)
  | .bool a, .bool b => !a && b
  | _, _ => false

/-- Python int(float(s)) for a decimal literal string: optional sign,
integer part, optional fractional part; truncation toward zero keeps the
signed integer part. Exponent forms, inf and nan are outside the model. -/
def parseFloatTrunc (s : String) : Option Int :=
  let t := trimChars s.data
  let sgn : Int := if t.head? = some '-' then -1 else 1
  let rest := if t.head? = some '-' ∨ t.head? = some '+' then t.tail else t
  match splitOnChar '.' rest with
  | [a] =>
      if a ≠ [] ∧ a.all Char.isDigit then some (sgn * digitsVal a)
      else none
  | [a, b] =>
      if (a ≠ [] ∨ b ≠ []) ∧ a.all Char.isDigit ∧ b.all Char.isDigit then
        some (sgn * digitsVal a)
      else none
  | _ => none

/-- Python int(float(v)): ints pass through, bools become 0/1, strings are
parsed as decimal floats and truncated. -/
def pyIntOfFloat : PyVal → Option Int
  | .int n => some n
  | .bool b => some (if b then 1 else 0)
  | .str s => parseFloatTrunc s

/-- The strings coerced to False for a bool-kind field
(BinOp.convert_value, bool branch). The literal pair of braces is written
with escapes. -/
def falseStrings : List String :=
  ["false", "f", "no", "n", "none", "0", "[]", "\x7b\x7d", ""]

/-- Membership of a string, trimmed and lowercased, in the false set. -/
def isFalseString (s : String) : Bool :=
  (falseStrings.map String.data).contains (lowerChars (trimChars s.data))

/-- TermValue(value, converted, kind): value is the native form kept for
filters, converted is the wire form used in the condition string. -/
structure TermValue where
  value : PyVal
  converted : PyVal
  kind : String
deriving DecidableEq, Repr

/-- TermValue.tostring: quote the string if not encoded, else return the
(already encoded) converted form raw. -/
def TermValue.tostring (tv : TermValue) (encoding : Option String) : String :=
  if tv.kind = "string" then
    if encoding.isSome then pyStr tv.converted
    else "\"" ++ pyStr tv.converted ++ "\""
  else pyStr tv.converted

/-- A queryable descriptor: kind plus optional category meta/metadata. -/
structure QueryableDesc where
  kind : String
  meta : Option String
  metadata : List PyVal
deriving DecidableEq, Repr

/-- The queryables side-table: field name to descriptor; a field mapped to
none is valid but not in-table (non-indexed column). -/
abbrev Queryables := List (String × Option QueryableDesc)

/-- Days from the civil epoch 1970-01-01 for a proleptic Gregorian date
(the standard civil-from-days inverse); all divisions are on non-negative
operands, so Int truncating division agrees with the source algorithm. -/
def daysFromCivil (y : Int) (m : Nat) (d : Nat) : Int :=
  let y2 : Int := if m ≤ 2 then y - 1 else y
  let era : Int := (if 0 ≤ y2 then y2 else y2 - 399) / 400
  let yoe : Int := y2 - era * 400
  let mp : Nat := (m + 9) % 12
  let doy : Int := ((153 * mp + 2) / 5 + d - 1 : Nat)
  let doe : Int := yoe * 365 + yoe / 4 - yoe / 100 + doy
  era * 146097 + doe - 719468

/-- Modelled from the spec: pd.Timestamp parsing of a naive ISO date
string (the library parser is not under src/). The spec: "parse as
timestamp; if tz-aware, convert to UTC; wire form is the integer
nanoseconds-since-epoch". Only the date form YYYY-MM-DD is modelled; such
strings are naive, so no timezone conversion applies. -/
def timestampNanos (s : String) : Option Int :=
  match splitOnChar '-' s.data with
  | [ys, ms, ds] =>
      match natOfDigits? ys, natOfDigits? ms, natOfDigits? ds with
      | some y, some m, some d =>
          if ys.length = 4 ∧ 1 ≤ m ∧ m ≤ 12 ∧ 1 ≤ d ∧ d ≤ 31 then
            some (daysFromCivil y m d * 86400 * 1000000000)
          else none
      | _, _, _ => none
  | _ => none

/-- numpy metadata.searchsorted(v, side='left') on the ordered category
metadata: the left-bisect insertion index, i.e. the length of the longest
prefix of elements strictly below v. -/
def searchsortedLeft (md : List PyVal) (v : PyVal) : Nat :=
  (md.takeWhile (fun c => pyLt c v)).length

/-- stringify from BinOp.convert_value: com.pprint_thing of the value
(pprint_thing_encoded differs only in producing encoded bytes, which the
embedding identifies with the decoded string). -/
def stringify (_encoding : Option String) (v : PyVal) : String :=
  pyStr v

/-- BinOp.convert_value: convert a RHS literal to the wire type declared by
the LHS field. Branches appear in source order. kind is none when the field
has no descriptor. In the embedding: no PyVal is a datetime or has a
timetuple, so the date branch always fails; timedelta parsing is modelled
for integer second counts (spec: "parse as duration with default unit of
seconds; wire form is the integer nanosecond count"); float-kind values are
IEEE-754 and outside the model, so their branch fails. -/
def convert_value (kind : Option String) (meta : Option String)
    (metadata : List PyVal) (encoding : Option String) (v : PyVal) :
    Option TermValue :=
  if kind = some "datetime64" ∨ kind = some "datetime" then
    match v with
    | .str s =>
        (timestampNanos s).map (fun ns => ⟨.int ns, .int ns, kind.getD ""⟩)
    | _ => none
  else if kind = some "date" then
    none
  else if kind = some "timedelta64" ∨ kind = some "timedelta" then
    match v with
    | .int n => some ⟨.int (n * 1000000000), .int (n * 1000000000), kind.getD ""⟩
    | _ => none
  else if meta = some "category" then
    some ⟨.int (searchsortedLeft metadata v), .int (searchsortedLeft metadata v),
          "integer"⟩
  else if kind = some "integer" then
    (pyIntOfFloat v).map (fun n => ⟨.int n, .int n, "integer"⟩)
  else if kind = some "float" then
    none
  else if kind = some "bool" then
    match v with
    | .str s =>
        some ⟨.bool (!(isFalseString s)), .bool (!(isFalseString s)), "bool"⟩
    | _ => some ⟨.bool (pyTruthy v), .bool (pyTruthy v), "bool"⟩
  else
    match v with
    | .str s => some ⟨.str s, .str (stringify encoding (.str s)), "string"⟩
    | _ => some ⟨.str (stringify encoding v), .str (stringify encoding v), "string"⟩

/-- The RHS of a comparison before conforming: a scalar or a value list. -/
inductive Rhs where
  | scalar (v : PyVal)
  | list (vs : List PyVal)
deriving DecidableEq, Repr

/-- BinOp.conform: wrap a non-list-like rhs into a singleton list. -/
def conform : Rhs → List PyVal
  | .scalar v => [v]
  | .list vs => vs

/-- The list comprehension [convert_value(v) for v in rhs]: the first
failing conversion aborts evaluation (a raised exception in the source). -/
def convertList (f : PyVal → Option TermValue) : List PyVal → Option (List TermValue)
  | [] => some []
  | v :: rest =>
      match f v, convertList f rest with
      | some tv, some tvs => some (tv :: tvs)
      | _, _ => none

/-- The maximum number of selectors allowed in an equality condition
before the comparison degrades to a residual filter. -/
def _max_selectors : Nat := 31

/-- BinOp.generate: the op string "(lhs op wire-value)" for one TermValue. -/
def generate (lhs op : String) (encoding : Option String) (v : TermValue) : String :=
  "(" ++ lhs ++ " " ++ op ++ " " ++ v.tostring encoding ++ ")"

/-- The two filter predicate lambdas: axis.isin(values) and its negation. -/
inductive FilterOp where
  | isin
  | notIsin
deriving DecidableEq, Repr

/-- A residual filter triple (column, predicate, value set). -/
structure FilterTriple where
  lhs : String
  pred : FilterOp
  values : List PyVal
deriving DecidableEq, Repr

/-- FilterBinOp.generate_filter_op: choose the predicate lambda from the
comparison op and the invert flag. -/
def generate_filter_op (op : String) (invert : Bool) : FilterOp :=
  if (op = "!=" ∧ invert = false) ∨ (op = "==" ∧ invert = true) then .notIsin
  else .isin

/-- A pruned filter-role node: a FilterBinOp leaf carrying its comparison
op and filter attribute, or a JointFilterBinOp whose evaluate returned
itself with both children kept (its own filter attribute stays None). -/
inductive FNode where
  | leaf (compOp : String) (filter : Option FilterTriple)
  | joint (op : String) (l r : FNode)
deriving DecidableEq, Repr

/-- The filter attribute of a pruned filter-role node: JointFilterBinOp
never assigns it, so it keeps the None from BinOp.__init__. -/
def FNode.filter : FNode → Option FilterTriple
  | .leaf _ f => f
  | .joint _ _ _ => none

/-- FilterBinOp.invert: when the filter attribute is set, replace the
predicate with generate_filter_op(invert=True) and return self; on a joint
node the attribute is None, so self is returned unchanged. -/
def FNode.invert : FNode → FNode
  | .leaf cop (some t) => .leaf cop (some ⟨t.lhs, generate_filter_op cop true, t.values⟩)
  | .leaf cop none => .leaf cop none
  | .joint op l r => .joint op l r

/-- Errors surfaced by the compiler (each models one raise site). -/
inductive PTError where
  | invalidQueryTerm
  | nonIndexablePredicate
  | cannotInvertCondition
  | conversionFailure
  | indexError
  | notAValidCondition
  | nameNotDefined (n : String)
deriving DecidableEq, Repr

deriving instance DecidableEq for Except

/-- FilterBinOp.evaluate on a comparison leaf: invalid fields raise; an
in-table field yields a filter only for an equality op whose value count
exceeds _max_selectors (else None, the comparison being condition work); a
valid non-table field yields a filter for equality ops and raises the
non-indexable-predicate TypeError otherwise. The triple's value set is the
conformed rhs (TermValue(v, v, kind).value is v itself). -/
def FilterBinOp.evaluate (q : Queryables) (_encoding : Option String)
    (op lhs : String) (rhs : Rhs) : Except PTError (Option FNode) :=
  match q.lookup lhs with
  | none => .error .invalidQueryTerm
  | some entry =>
      let values := conform rhs
      match entry with
      | some _ =>
          if (op = "==" ∨ op = "!=") ∧ values.length > _max_selectors then
            .ok (some (.leaf op (some ⟨lhs, generate_filter_op op false, values⟩)))
          else .ok none
      | none =>
          if op = "==" ∨ op = "!=" then
            .ok (some (.leaf op (some ⟨lhs, generate_filter_op op false, values⟩)))
          else .error .nonIndexablePredicate

/-- A pruned condition-role node: its condition attribute. Leaf and joint
condition nodes both expose only this attribute downstream. -/
structure CNode where
  condition : Option String
deriving DecidableEq, Repr

/-- Formatting of a condition attribute inside a joint condition: a None
attribute prints as "None" (Python f-string of None). -/
def condAttr (o : Option String) : String :=
  match o with
  | some s => s
  | none => "None"

/-- JointConditionBinOp.evaluate: the condition is the parenthesized
boolean combination of the two children's conditions. -/
def JointConditionBinOp.evaluate (op : String) (l r : CNode) : CNode :=
  ⟨some ("(" ++ condAttr l.condition ++ " " ++ op ++ " " ++ condAttr r.condition ++ ")")⟩

/-- ConditionBinOp.evaluate on a comparison leaf: invalid fields raise;
a valid non-table field returns None; otherwise the conformed rhs is
converted value-wise (a failing conversion raises). Equality ops with more
than _max_selectors values return None; otherwise they emit the or-join of
per-value terms; ordering ops emit the single-value term (values[0] raises
IndexError on an empty list). -/
def ConditionBinOp.evaluate (q : Queryables) (encoding : Option String)
    (op lhs : String) (rhs : Rhs) : Except PTError (Option CNode) :=
  match q.lookup lhs with
  | none => .error .invalidQueryTerm
  | some none => .ok none
  | some (some desc) =>
      match convertList (convert_value (some desc.kind) desc.meta desc.metadata encoding)
              (conform rhs) with
      | none => .error .conversionFailure
      | some values =>
          if op = "==" ∨ op = "!=" then
            if values.length > _max_selectors then .ok none
            else
              .ok (some ⟨some ("(" ++
                String.intercalate " | " (values.map (generate lhs op encoding)) ++ ")")⟩)
          else
            match values with
            | [] => .error .indexError
            | v :: _ => .ok (some ⟨some (generate lhs op encoding v)⟩)

/-- The typed AST relevant to pruning: comparison leaves whose terms are
already resolved (lhs a field name, rhs a literal), boolean combinations,
and the only accepted unary op, inversion. -/
inductive PTNode where
  | cmp (op : String) (lhs : String) (rhs : Rhs)
  | boolOp (op : String) (l r : PTNode)
  | unary (child : PTNode)
deriving DecidableEq, Repr

/-- BinOp.prune at the Condition role. On a comparison leaf the pr helper
sees two term values and builds ConditionBinOp(op, lhs, rhs).evaluate().
On a boolean node: a None side short-circuits to the other; two pruned
condition children combine through JointConditionBinOp. UnaryOp.prune:
when the pruned operand has a non-None condition, operand.invert() raises
(ConditionBinOp.invert is NotImplementedError); else None. -/
def PTNode.pruneCond (q : Queryables) (enc : Option String) :
    PTNode → Except PTError (Option CNode)
  | .cmp op lhs rhs => ConditionBinOp.evaluate q enc op lhs rhs
  | .boolOp op l r =>
      match l.pruneCond q enc with
      | .error e => .error e
      | .ok lr =>
          match r.pruneCond q enc with
          | .error e => .error e
          | .ok none => .ok lr
          | .ok (some b) =>
              match lr with
              | none => .ok (some b)
              | some a => .ok (some (JointConditionBinOp.evaluate op a b))
  | .unary child =>
      match child.pruneCond q enc with
      | .error e => .error e
      | .ok none => .ok none
      | .ok (some n) =>
          if n.condition.isSome then .error .cannotInvertCondition else .ok none

/-- BinOp.prune at the Filter role. Comparison leaves evaluate as
FilterBinOp; on a boolean node a None side short-circuits and two pruned
filter children combine through JointFilterBinOp, whose evaluate returns
itself. UnaryOp.prune: when the pruned operand has a non-None filter
attribute, return operand.invert(); else None. -/
def PTNode.pruneFilt (q : Queryables) (enc : Option String) :
    PTNode → Except PTError (Option FNode)
  | .cmp op lhs rhs => FilterBinOp.evaluate q enc op lhs rhs
  | .boolOp op l r =>
      match l.pruneFilt q enc with
      | .error e => .error e
      | .ok lr =>
          match r.pruneFilt q enc with
          | .error e => .error e
          | .ok none => .ok lr
          | .ok (some b) =>
              match lr with
              | none => .ok (some b)
              | some a => .ok (some (.joint op a b))
  | .unary child =>
      match child.pruneFilt q enc with
      | .error e => .error e
      | .ok none => .ok none
      | .ok (some n) =>
          if n.filter.isSome then .ok (some n.invert) else .ok none

/-- Term._resolve_name: a left-side term must name a queryable (else
NameError) and resolves to its own name; any other side resolves through
the lexical scope, an unresolvable name being returned as the bare name
string (the UndefinedVariableError is caught). -/
def Term.resolve_name (q : Queryables) (scope : List (String × PyVal))
    (side : Option String) (name : String) : Except PTError PyVal :=
  if side = some "left" then
    if (q.lookup name).isNone then .error (.nameNotDefined name)
    else .ok (.str name)
  else
    match scope.lookup name with
    | some v => .ok v
    | none => .ok (.str name)

/-- Expr.__init__, restricted to the terms attribute: it is pre-set to
None and parsing assigns it only when queryables is not None and the
normalized where is a string. -/
def Expr.init_terms (queryables : Option Queryables) (whereExpr : Option String)
    (parse : String → PTNode) : Option PTNode :=
  match queryables, whereExpr with
  | some _, some w => some (parse w)
  | _, _ => none

/-- Expr.evaluate: prune the terms at the Condition role then at the
Filter role. When terms is None, terms.prune raises AttributeError, which
evaluate rewraps as the not-a-valid-condition ValueError. -/
def Expr.evaluate (q : Queryables) (enc : Option String) (terms : Option PTNode) :
    Except PTError (Option CNode × Option FNode) :=
  match terms with
  | none => .error .notAValidCondition
  | some t =>
      match t.pruneCond q enc with
      | .error e => .error e
      | .ok c =>
          match t.pruneFilt q enc with
          | .error e => .error e
          | .ok f => .ok (c, f)

/-- The lexicographic char-list order is irreflexive. -/
theorem charsLt_irrefl : ∀ cs : List Char, charsLt cs cs = false
  | [] => rfl
  | c :: cs => by simp [charsLt, charsLt_irrefl cs]

/-- The strict value order is irreflexive. -/
theorem pyLt_irrefl (a : PyVal) : pyLt a a = false := by
  cases a with
  | str s => simp [pyLt, charsLt_irrefl]
  | int n => simp [pyLt]
  | bool b => cases b <;> rfl

/-- On metadata sorted strictly by pyLt, the left-bisect index of the k-th
element is k. -/
theorem searchsortedLeft_get (md : List PyVal) (v : PyVal) :
    ∀ (k : Nat) (hk : k < md.length),
      List.Pairwise (fun a b => pyLt a b = true) md →
      md.get ⟨k, hk⟩ = v → searchsortedLeft md v = k := by
  induction md with
  | nil => intro k hk _ _; exact absurd hk (by simp)
  | cons a rest ih =>
      intro k hk hp hv
      obtain ⟨ha, hrest⟩ := List.pairwise_cons.mp hp
      cases k with
      | zero =>
          have hav : a = v := hv
          subst hav
          simp [searchsortedLeft, List.takeWhile_cons, pyLt_irrefl]
      | succ j =>
          have hj : j < rest.length := Nat.lt_of_succ_lt_succ hk
          have hv2 : rest.get ⟨j, hj⟩ = v := hv
          have hmem : v ∈ rest := hv2 ▸ rest.get_mem j hj
          have hlt : pyLt a v = true := ha v hmem
          have := ih j hj hrest hv2
          simp [searchsortedLeft, List.takeWhile_cons, hlt] at this ⊢
          omega

/-- Value-wise conversion preserves the value count. -/
theorem convertList_length (f : PyVal → Option TermValue) :
    ∀ (l : List PyVal) (r : List TermValue), convertList f l = some r →
      r.length = l.length := by
  intro l
  induction l with
  | nil => intro r h; simp [convertList] at h; simp [← h]
  | cons v rest ih =>
      intro r h
      unfold convertList at h
      cases hfv : f v with
      | none => rw [hfv] at h; exact absurd h (by simp)
      | some tv =>
          cases hcl : convertList f rest with
          | none => rw [hfv, hcl] at h; exact absurd h (by simp)
          | some tvs =>
              rw [hfv, hcl] at h
              have hr : r = tv :: tvs := by
                simpa using h.symm
              subst hr
              simp [ih tvs hcl]

/-- C1: for an in-table queryable field and an equality comparison over a
conformed value list of length k (whose values all convert), k ≤ 31 makes
the Condition-role evaluation return a node with its condition string set
while the Filter role returns null, and k ≥ 32 makes the Condition role
return null while the Filter role returns the (lhs, predicate, values)
triple; the threshold is _max_selectors = 31. -/
theorem C1_selector_threshold (q : Queryables) (desc : QueryableDesc)
    (f op : String) (enc : Option String) (vs : List PyVal) (tvs : List TermValue)
    (hq : q.lookup f = some (some desc))
    (hop : op = "==" ∨ op = "!=")
    (hconv : convertList (convert_value (some desc.kind) desc.meta desc.metadata enc)
        vs = some tvs) :
    (vs.length ≤ _max_selectors →
        (∃ s, ConditionBinOp.evaluate q enc op f (.list vs) = .ok (some ⟨some s⟩))
        ∧ FilterBinOp.evaluate q enc op f (.list vs) = .ok none)
    ∧ (_max_selectors + 1 ≤ vs.length →
        ConditionBinOp.evaluate q enc op f (.list vs) = .ok none
        ∧ FilterBinOp.evaluate q enc op f (.list vs)
            = .ok (some (.leaf op (some ⟨f, generate_filter_op op false, vs⟩)))) := by
  have hlen := convertList_length _ vs tvs hconv
  constructor
  · intro hle
    constructor
    · refine ⟨"(" ++ String.intercalate " | " (tvs.map (generate f op enc)) ++ ")", ?_⟩
      unfold ConditionBinOp.evaluate
      rw [hq]
      simp only [conform]
      rw [hconv]
      simp only [_max_selectors] at hle ⊢
      rw [if_pos hop, if_neg (by omega)]
    · unfold FilterBinOp.evaluate
      rw [hq]
      simp only [conform]
      simp only [_max_selectors] at hle ⊢
      rw [if_neg (by omega)]
  · intro hge
    constructor
    · unfold ConditionBinOp.evaluate
      rw [hq]
      simp only [conform]
      rw [hconv]
      simp only [_max_selectors] at hge ⊢
      rw [if_pos hop, if_pos (by omega)]
    · unfold FilterBinOp.evaluate
      rw [hq]
      simp only [conform]
      simp only [_max_selectors] at hge ⊢
      rw [if_pos ⟨hop, by omega⟩]

/-- Concrete queryables for the C1 witness: one in-table integer field. -/
def qC1 : Queryables := [("A", some ⟨"integer", none, []⟩)]

/-- Thirty-one integer values. -/
def vsC1a : List PyVal := (List.range 31).map (fun n => .int (n : Int))

/-- Their converted forms. -/
def tvsC1a : List TermValue := (List.range 31).map (fun n => ⟨.int (n : Int), .int (n : Int), "integer"⟩)

/-- Thirty-two integer values. -/
def vsC1b : List PyVal := (List.range 32).map (fun n => .int (n : Int))

/-- Their converted forms. -/
def tvsC1b : List TermValue := (List.range 32).map (fun n => ⟨.int (n : Int), .int (n : Int), "integer"⟩)

/-- Witness for C1: at k = 31 the comparison is a condition and the filter
is null; at k = 32 the condition is null and the filter is the triple. -/
theorem C1_selector_threshold_witness :
    ((∃ s, ConditionBinOp.evaluate qC1 none "==" "A" (.list vsC1a) = .ok (some ⟨some s⟩))
      ∧ FilterBinOp.evaluate qC1 none "==" "A" (.list vsC1a) = .ok none)
    ∧ ConditionBinOp.evaluate qC1 none "==" "A" (.list vsC1b) = .ok none
    ∧ FilterBinOp.evaluate qC1 none "==" "A" (.list vsC1b)
        = .ok (some (.leaf "==" (some ⟨"A", generate_filter_op "==" false, vsC1b⟩))) :=
  ⟨(C1_selector_threshold qC1 ⟨"integer", none, []⟩ "A" "==" none vsC1a tvsC1a
      rfl (Or.inl rfl) (by decide)).1 (by decide),
   (C1_selector_threshold qC1 ⟨"integer", none, []⟩ "A" "==" none vsC1b tvsC1b
      rfl (Or.inl rfl) (by decide)).2 (by decide)⟩

/-- The filter node produced by evaluating a == 1 on a valid non-table
column: predicate isin, value set [1]. -/
def fC2 : FNode := .leaf "==" (some ⟨"a", .isin, [.int 1]⟩)

/-- Counterexample to C2: fC2 is reachable (FilterBinOp.evaluate produces
it), its filter is non-null, yet inverting it twice does not return a
filter equal to the original: the predicate stays the negated isin
installed by the first inversion. -/
theorem C2_double_invert_counterexample :
    FilterBinOp.evaluate [("a", none)] none "==" "a" (.scalar (.int 1))
        = .ok (some fC2)
    ∧ fC2.filter.isSome = true
    ∧ fC2.invert.invert ≠ fC2 := by
  refine ⟨by decide, by decide, by decide⟩

/-- C2 (amended): for a FilterBinOp leaf with a non-null filter, inverting
twice equals inverting once — the predicate after any inversion is
generate_filter_op(invert=True), and the column and value set are
preserved — but the original predicate is not restored. -/
theorem C2_double_invert_amended (cop : String) (t : FilterTriple) :
    (FNode.leaf cop (some t)).invert.invert = (FNode.leaf cop (some t)).invert
    ∧ (FNode.leaf cop (some t)).invert.invert
        = .leaf cop (some ⟨t.lhs, generate_filter_op cop true, t.values⟩) := by
  constructor <;> simp [FNode.invert]

/-- C9: FilterBinOp.invert on a leaf with a non-null filter always
installs generate_filter_op(invert=True) as the predicate, keeping column
and value set, irrespective of prior inversions; hence inversion is
idempotent after the first application. -/
theorem C9_invert_installs_inverted_predicate (cop : String) (t : FilterTriple) :
    (FNode.leaf cop (some t)).invert
        = .leaf cop (some ⟨t.lhs, generate_filter_op cop true, t.values⟩)
    ∧ ((FNode.leaf cop (some t)).invert.invert = (FNode.leaf cop (some t)).invert
        ∧ (FNode.leaf cop (some t)).invert.invert.invert
            = (FNode.leaf cop (some t)).invert) := by
  refine ⟨rfl, by simp [FNode.invert], by simp [FNode.invert]⟩

/-- C3: for a field whose descriptor carries meta category (and a kind
that is none of the datetime/date/timedelta kinds, which are matched
first), convert_value coerces any literal to its left-bisect index in the
ordered metadata with wire kind integer; when the literal equals the k-th
element of the strictly sorted metadata, that index is exactly k. -/
theorem C3_category_bisect (kind : Option String) (meta : Option String)
    (md : List PyVal) (enc : Option String) (v : PyVal)
    (hk1 : kind ≠ some "datetime64") (hk2 : kind ≠ some "datetime")
    (hk3 : kind ≠ some "date") (hk4 : kind ≠ some "timedelta64")
    (hk5 : kind ≠ some "timedelta")
    (hmeta : meta = some "category") :
    convert_value kind meta md enc v
        = some ⟨.int (searchsortedLeft md v), .int (searchsortedLeft md v), "integer"⟩
    ∧ (∀ (k : Nat) (hik : k < md.length),
        List.Pairwise (fun a b => pyLt a b = true) md →
        md.get ⟨k, hik⟩ = v → searchsortedLeft md v = k) := by
  constructor
  · unfold convert_value
    rw [if_neg (by tauto), if_neg hk3, if_neg (by tauto), if_pos hmeta]
  · intro k hik hs hv
    exact searchsortedLeft_get md v k hik hs hv

/-- Witness for C3: in the metadata ["x", "y", "z"] the literal "y"
coerces to wire integer 1. -/
theorem C3_category_bisect_witness :
    convert_value (some "string") (some "category")
        [.str "x", .str "y", .str "z"] none (.str "y")
      = some ⟨.int 1, .int 1, "integer"⟩
    ∧ searchsortedLeft [.str "x", .str "y", .str "z"] (.str "y") = 1 := by
  have h := C3_category_bisect (some "string") (some "category")
    [.str "x", .str "y", .str "z"] none (.str "y")
    (by decide) (by decide) (by decide) (by decide) (by decide) rfl
  exact ⟨h.1, h.2 1 (by decide) (by decide) rfl⟩

/-- Queryables for the C4 scenario: an in-table datetime64 index. -/
def qC4 : Queryables := [("index", some ⟨"datetime64", none, []⟩)]

/-- C4: with the index of kind datetime64 and null encoding, the
comparison index >= "2013-01-01" prunes at the Condition role to the
string "(index >= 1356998400000000000)" (the naive timestamp as integer
nanoseconds since the epoch) and at the Filter role to null. -/
theorem C4_datetime_condition :
    PTNode.pruneCond qC4 none (.cmp ">=" "index" (.scalar (.str "2013-01-01")))
        = .ok (some ⟨some "(index >= 1356998400000000000)"⟩)
    ∧ PTNode.pruneFilt qC4 none (.cmp ">=" "index" (.scalar (.str "2013-01-01")))
        = .ok none := by
  constructor <;> rfl

/-- C5: pruning a unary inversion node: at the Condition role, a pruned
child with a non-null condition makes the prune fail with the
cannot-invert-condition error (ConditionBinOp.invert); at the Filter role,
a pruned child with a non-null filter is returned inverted; in the other
cases (child pruned to null at either role, or a filter-role child whose
filter attribute is null, as on a joint filter) the prune returns null. -/
theorem C5_unary_prune (q : Queryables) (enc : Option String) (child : PTNode) :
    (∀ (n : CNode) (s : String), PTNode.pruneCond q enc child = .ok (some n) →
        n.condition = some s →
        PTNode.pruneCond q enc (.unary child) = .error .cannotInvertCondition)
    ∧ (∀ (n : FNode) (t : FilterTriple), PTNode.pruneFilt q enc child = .ok (some n) →
        n.filter = some t →
        PTNode.pruneFilt q enc (.unary child) = .ok (some n.invert))
    ∧ (PTNode.pruneCond q enc child = .ok none →
        PTNode.pruneCond q enc (.unary child) = .ok none)
    ∧ (PTNode.pruneFilt q enc child = .ok none →
        PTNode.pruneFilt q enc (.unary child) = .ok none)
    ∧ (∀ n : FNode, PTNode.pruneFilt q enc child = .ok (some n) →
        n.filter = none → PTNode.pruneFilt q enc (.unary child) = .ok none) := by
  refine ⟨?_, ?_, ?_, ?_, ?_⟩
  · intro n s hc hcond
    simp [PTNode.pruneCond, hc, hcond]
  · intro n t hf hfil
    simp [PTNode.pruneFilt, hf, hfil]
  · intro hc
    simp [PTNode.pruneCond, hc]
  · intro hf
    simp [PTNode.pruneFilt, hf]
  · intro n hf hfil
    simp [PTNode.pruneFilt, hf, hfil]

/-- Witness for C5: inverting the filter of s == "bar" on a valid
non-table column swaps its predicate to the negated isin. -/
theorem C5_unary_prune_witness :
    PTNode.pruneFilt [("s", none)] none (.unary (.cmp "==" "s" (.scalar (.str "bar"))))
      = .ok (some (.leaf "==" (some ⟨"s", .notIsin, [.str "bar"]⟩))) := by
  have h := (C5_unary_prune [("s", none)] none
      (.cmp "==" "s" (.scalar (.str "bar")))).2.1
      (.leaf "==" (some ⟨"s", .isin, [.str "bar"]⟩)) ⟨"s", .isin, [.str "bar"]⟩
      (by decide) (by decide)
  rw [h]; decide

/-- C6: a comparison on a field that is valid but not in-table (null
descriptor) is purely a filter: equality ops produce the filter triple and
a null condition, and each ordering op fails at the Filter role with the
non-indexable-predicate error. -/
theorem C6_non_table_column (q : Queryables) (enc : Option String)
    (f : String) (rhs : Rhs)
    (hq : q.lookup f = some none) :
    (∀ op, op = "==" ∨ op = "!=" →
        FilterBinOp.evaluate q enc op f rhs
            = .ok (some (.leaf op (some ⟨f, generate_filter_op op false, conform rhs⟩)))
        ∧ ConditionBinOp.evaluate q enc op f rhs = .ok none)
    ∧ (∀ op, op = "<" ∨ op = "<=" ∨ op = ">" ∨ op = ">=" →
        FilterBinOp.evaluate q enc op f rhs = .error .nonIndexablePredicate) := by
  constructor
  · intro op hop
    constructor
    · unfold FilterBinOp.evaluate
      rw [hq]
      simp only []
      rw [if_pos hop]
    · unfold ConditionBinOp.evaluate
      rw [hq]
  · intro op hop
    unfold FilterBinOp.evaluate
    rw [hq]
    simp only []
    rcases hop with h | h | h | h <;> subst h <;> rw [if_neg (by decide)]

/-- Witness for C6: string == "bar" with a null descriptor yields the isin
filter triple, a null condition, and string < "bar" fails. -/
theorem C6_non_table_column_witness :
    (FilterBinOp.evaluate [("string", none)] none "==" "string" (.scalar (.str "bar"))
        = .ok (some (.leaf "==" (some ⟨"string", generate_filter_op "==" false,
            conform (.scalar (.str "bar"))⟩)))
      ∧ ConditionBinOp.evaluate [("string", none)] none "==" "string"
          (.scalar (.str "bar")) = .ok none)
    ∧ FilterBinOp.evaluate [("string", none)] none "<" "string" (.scalar (.str "bar"))
        = .error .nonIndexablePredicate := by
  have h := C6_non_table_column [("string", none)] none "string"
      (.scalar (.str "bar")) (by decide)
  exact ⟨h.1 "==" (Or.inl rfl), h.2 "<" (Or.inl rfl)⟩

/-- C7: coercion against a bool-kind field (with non-category meta):
a string coerces to false exactly when its trimmed, lowercased form is in
the false set, and any non-string coerces to its Python truthiness. -/
theorem C7_bool_coercion (meta : Option String) (md : List PyVal)
    (enc : Option String) (hm : meta ≠ some "category") :
    (∀ s : String, convert_value (some "bool") meta md enc (.str s)
        = some ⟨.bool (!(isFalseString s)), .bool (!(isFalseString s)), "bool"⟩)
    ∧ (∀ v : PyVal, (∀ s, v ≠ .str s) →
        convert_value (some "bool") meta md enc v
            = some ⟨.bool (pyTruthy v), .bool (pyTruthy v), "bool"⟩) := by
  constructor
  · intro s
    simp [convert_value, hm]
  · intro v hv
    match v with
    | .str s => exact absurd rfl (hv s)
    | .int n => simp [convert_value, hm]
    | .bool b => simp [convert_value, hm]

/-- Witness for C7: " False " trims and lowercases into the false set and
coerces to False; the non-string 7 coerces to its truthiness True. -/
theorem C7_bool_coercion_witness :
    convert_value (some "bool") none [] none (.str " False ")
        = some ⟨.bool false, .bool false, "bool"⟩
    ∧ convert_value (some "bool") none [] none (.int 7)
        = some ⟨.bool true, .bool true, "bool"⟩ := by
  have h := C7_bool_coercion none [] none (by decide)
  constructor
  · rw [h.1 " False "]; decide
  · rw [h.2 (.int 7) (by intro s h; cases h)]; decide

/-- C8: Term resolution is side-asymmetric: a left-side term fails with
the undefined-name error exactly when the name is not a queryables key and
otherwise resolves to the name itself; a right-side name the scope cannot
resolve is returned as the bare name string, and a right-side resolution
never errors. -/
theorem C8_side_asymmetric_resolution (q : Queryables)
    (scope : List (String × PyVal)) (name : String) :
    ((q.lookup name).isSome = true →
        Term.resolve_name q scope (some "left") name = .ok (.str name))
    ∧ ((q.lookup name).isNone = true →
        Term.resolve_name q scope (some "left") name
            = .error (.nameNotDefined name))
    ∧ (scope.lookup name = none →
        Term.resolve_name q scope (some "right") name = .ok (.str name))
    ∧ (∀ e, Term.resolve_name q scope (some "right") name ≠ .error e) := by
  refine ⟨?_, ?_, ?_, ?_⟩
  · intro hsome
    unfold Term.resolve_name
    rw [if_pos rfl, if_neg (by simp [Option.isNone_iff_eq_none] at hsome ⊢; exact hsome)]
  · intro hnone
    unfold Term.resolve_name
    rw [if_pos rfl, if_pos hnone]
  · intro hsc
    unfold Term.resolve_name
    rw [if_neg (by decide), hsc]
  · intro e
    unfold Term.resolve_name
    rw [if_neg (by decide)]
    cases scope.lookup name <;> simp

/-- Witness for C8: with queryables containing only a, the left-side name
b errors while the right-side name b resolves to the literal "b". -/
theorem C8_side_asymmetric_resolution_witness :
    Term.resolve_name [("a", (none : Option QueryableDesc))] [] (some "left") "b"
        = .error (.nameNotDefined "b")
    ∧ Term.resolve_name [("a", (none : Option QueryableDesc))] [] (some "right") "b"
        = .ok (.str "b") := by
  have h := C8_side_asymmetric_resolution [("a", none)] [] "b"
  exact ⟨h.2.1 (by decide), h.2.2.1 (by decide)⟩

/-- C10: when Expr is built with queryables None, or with a where that is
not a string after back-compat normalization, the terms attribute stays
None and evaluate fails with the not-a-valid-condition error. -/
theorem C10_no_terms_invalid_condition (qs : Option Queryables)
    (w : Option String) (parse : String → PTNode) (q : Queryables)
    (enc : Option String)
    (h : qs = none ∨ w = none) :
    Expr.init_terms qs w parse = none
    ∧ Expr.evaluate q enc (Expr.init_terms qs w parse)
        = .error .notAValidCondition := by
  have hterm : Expr.init_terms qs w parse = none := by
    cases qs with
    | none => cases w <;> rfl
    | some q2 =>
        cases w with
        | none => rfl
        | some wv => rcases h with h | h <;> simp at h
  exact ⟨hterm, by rw [hterm]; rfl⟩

/-- Witness for C10: queryables None with a string where leaves terms None
and evaluate errors. -/
theorem C10_no_terms_invalid_condition_witness :
    Expr.init_terms none (some "a==1") (fun _ => .cmp "==" "a" (.scalar (.int 1))) = none
    ∧ Expr.evaluate [] none
        (Expr.init_terms none (some "a==1") (fun _ => .cmp "==" "a" (.scalar (.int 1))))
          = .error .notAValidCondition :=
  C10_no_terms_invalid_condition none (some "a==1")
    (fun _ => .cmp "==" "a" (.scalar (.int 1))) [] none (Or.inl rfl)
